import Mathlib

/-!
Shallow embedding of the ICP student-records canister (src/src/index.ts) and
proofs of the specification claims.

Modelling conventions, fixed by the source:
- Candid nat64 values (level, cgpa, timestamps, count) are modelled as Nat;
  the code never performs arithmetic on them, only comparisons and the
  BigInt-to-Number conversion modelled by jsNumber below.
- Candid text is String; Principal is an opaque String.
- The StableBTreeMap is modelled as an association list from id to record;
  stores reachable through the operations have distinct keys (Store.WF).
- ic.time(), ic.caller() and uuidv4() are injected parameters (now, caller,
  gid), as the spec treats them (externally supplied capabilities).
- The update operations attach an updatedAt property to the stored object
  (source lines 109 and 162); the Student structure therefore carries an
  optional updatedAt, absent at creation.
-/

/-- The fixed course-type set (source line 7). -/
def COURSE_TYPES : List String :=
  [("accounting"), ("information tech"), ("medicine"), ("engineer"), ("farming")]

/-- A Student record (source lines 10-18) together with the optional updatedAt
timestamp attached by the update operations. -/
structure Student where
  id : String
  name : String
  course : String
  level : Nat
  cgpa : Nat
  createdAt : Nat
  updatedAt : Option Nat
  lecturerId : String
deriving DecidableEq, Repr

/-- Payload of updateStudent (source lines 21-26). -/
structure StudentPayload where
  name : String
  course : String
  level : Nat
  cgpa : Nat
deriving DecidableEq, Repr

/-- Payload of updateGrade (source lines 29-31). -/
structure CgpaPayload where
  cgpa : Nat
deriving DecidableEq, Repr

/-- The error variant (source lines 34-37). -/
inductive Errors where
  | UserDoesNotExist : String → Errors
  | CourseDoesNotExist : String → Errors
deriving DecidableEq, Repr

/-- The azle Result variant with Ok and Err constructors. -/
inductive Result (α : Type) (ε : Type) where
  | Ok : α → Result α ε
  | Err : ε → Result α ε
deriving DecidableEq, Repr

/-- The stable map of students (source line 40), as an association list. -/
abbrev Store := List (String × Student)

/-- The initially empty map. -/
def Store.empty : Store := []

/-- Point lookup (StableBTreeMap.get). -/
def Store.get : Store → String → Option Student
  | [], _ => none
  | (k, v) :: rest, i => if k = i then some v else Store.get rest i

/-- Key membership (StableBTreeMap.containsKey). -/
def Store.containsKey (s : Store) (i : String) : Bool :=
  (s.get i).isSome

/-- Insert-or-replace (StableBTreeMap.insert). -/
def Store.insert : Store → String → Student → Store
  | [], i, v => [(i, v)]
  | (k, w) :: rest, i, v =>
      if k = i then (i, v) :: rest else (k, w) :: Store.insert rest i v

/-- Removal returning the removed value (StableBTreeMap.remove). -/
def Store.remove : Store → String → Option Student × Store
  | [], _ => (none, [])
  | (k, v) :: rest, i =>
      if k = i then (some v, rest)
      else ((Store.remove rest i).1, (k, v) :: (Store.remove rest i).2)

/-- All stored records (StableBTreeMap.values). -/
def Store.values (s : Store) : List Student :=
  s.map Prod.snd

/-- Well-formedness of a store: distinct keys, as in a real map. -/
def Store.WF (s : Store) : Prop :=
  (s.map Prod.fst).Nodup

/-- JavaScript String.prototype.toLowerCase, restricted to the ASCII case
mapping, which agrees with the full Unicode mapping on every input relevant to
the course check: none of the five course names contains a character that is
the Unicode lowercase form of a non-ASCII character. -/
def toLowerCase (s : String) : String :=
  String.mk (s.data.map Char.toLower)

/-- Interpolating a string array into a JS template literal uses
Array.prototype.toString, i.e. comma separation without spaces. -/
def joinComma : List String → String
  | [] => ""
  | [x] => x
  | x :: y :: rest => x ++ "," ++ joinComma (y :: rest)

/-- Error message produced by the course validation in createStudent
(source line 55) and updateStudent (source line 103). -/
def courseErrMsg (course : String) : String :=
  "\x27" ++ course ++ "\x27 is not a viable course, please select one of: " ++
    joinComma COURSE_TYPES

/-- Position of the leading bit above bit 52 of a nat64 value: Number(n) on a
BigInt n with 2^53 ≤ n rounds n to a multiple of 2^(jsExp n). The chain of
comparisons covers the whole nat64 range of cgpa and count values. -/
def jsExp (n : Nat) : Nat :=
  if n < 2 ^ 54 then 1 else if n < 2 ^ 55 then 2 else if n < 2 ^ 56 then 3
  else if n < 2 ^ 57 then 4 else if n < 2 ^ 58 then 5 else if n < 2 ^ 59 then 6
  else if n < 2 ^ 60 then 7 else if n < 2 ^ 61 then 8 else if n < 2 ^ 62 then 9
  else if n < 2 ^ 63 then 10 else 11

/-- Number(n) for a nat64 BigInt n (source lines 180-181 and 188): a value
below 2^53 is exact, a larger value is rounded to 53 significant bits with
ties to even, the IEEE-754 double rounding. -/
def jsNumber (n : Nat) : Nat :=
  if n < 2 ^ 53 then n
  else
    if 2 ^ (jsExp n - 1) < n % 2 ^ jsExp n
        ∨ (n % 2 ^ jsExp n = 2 ^ (jsExp n - 1) ∧ (n / 2 ^ jsExp n) % 2 = 1)
    then (n / 2 ^ jsExp n + 1) * 2 ^ jsExp n
    else n / 2 ^ jsExp n * 2 ^ jsExp n

/-- Stable insertion of x before the first element whose key is not greater
than the key of x. -/
def insertDesc {α : Type} (key : α → Nat) (x : α) : List α → List α
  | [] => [x]
  | y :: ys => if key x < key y then y :: insertDesc key x ys else x :: y :: ys

/-- Stable descending sort by a Nat key. With the key jsNumber of cgpa this is
the result of the ECMAScript stable Array.prototype.sort under the comparator
Number(b.cgpa) - Number(a.cgpa) of source lines 178-185: the sign of that
exact double subtraction is the sign of the integer difference of the rounded
values, so the comparator is the consistent descending comparison of the
rounded values and the stable sort result is unique. -/
def sortDesc {α : Type} (key : α → Nat) : List α → List α
  | [] => []
  | x :: xs => insertDesc key x (sortDesc key xs)

/-- createStudent (source lines 50-71); the generated uuid, the current time
and the caller identity are the injected gid, now and caller. -/
def createStudent (gid : String) (now : Nat) (caller : String)
    (name course : String) (level cgpa : Nat) (s : Store) :
    Result Student Errors × Store :=
  if COURSE_TYPES.contains (toLowerCase course) = false then
    (.Err (.CourseDoesNotExist (courseErrMsg course)), s)
  else
    let user : Student :=
      { id := gid
        name := name
        course := course
        level := level
        cgpa := cgpa
        createdAt := now
        updatedAt := none
        lecturerId := caller }
    (.Ok user, s.insert user.id user)

/-- getAllStudents (source lines 77-86). -/
def getAllStudents (s : Store) : Result (List Student) Errors :=
  if (s.values).length = 0 then .Err (.UserDoesNotExist ("No students found"))
  else .Ok s.values

/-- updateStudent (source lines 94-115): an empty course string is falsy in
JS, so it skips the validation, but the spread still writes it. -/
def updateStudent (now : Nat) (i : String) (p : StudentPayload) (s : Store) :
    Result Student Errors × Store :=
  match s.get i with
  | none =>
      (.Err (.UserDoesNotExist
        ("couldn\x27t update a student with id=" ++ i ++ (". Student not found"))), s)
  | some student =>
      if p.course ≠ ("") ∧ COURSE_TYPES.contains (toLowerCase p.course) = false then
        (.Err (.CourseDoesNotExist (courseErrMsg p.course)), s)
      else
        let updatedStudent : Student :=
          { student with
            name := p.name
            course := p.course
            level := p.level
            cgpa := p.cgpa
            updatedAt := some now }
        (.Ok updatedStudent, s.insert updatedStudent.id updatedStudent)

/-- getStudentById (source lines 122-129); the none branch after the
containsKey guard is unreachable (the source reads .Some unconditionally
behind the guard). -/
def getStudentById (s : Store) (i : String) : Result Student Errors :=
  if s.containsKey i = false then .Err (.UserDoesNotExist i)
  else
    match s.get i with
    | some user => .Ok user
    | none => .Err (.UserDoesNotExist i)

/-- deleteStudentRecord (source lines 136-142). -/
def deleteStudentRecord (i : String) (s : Store) : Result Student Errors × Store :=
  match (s.remove i).1 with
  | none =>
      (.Err (.UserDoesNotExist
        ("couldn\x27t delete a student with id=" ++ i ++ (". Student not found"))),
       (s.remove i).2)
  | some deleted => (.Ok deleted, (s.remove i).2)

/-- updateGrade (source lines 145-170). -/
def updateGrade (now : Nat) (i : String) (p : CgpaPayload) (s : Store) :
    Result Student Errors × Store :=
  match s.get i with
  | none =>
      (.Err (.UserDoesNotExist
        ("Couldn\x27t update a student with id=" ++ i ++ (". Student not found"))), s)
  | some student =>
      let updatedGrade : Student :=
        { student with
          cgpa := p.cgpa
          updatedAt := some now }
      (.Ok updatedGrade, s.insert updatedGrade.id updatedGrade)

/-- The sort-and-slice core of getTopStudents applied to the enumerated
values (source lines 173-197). -/
def getTopStudentsOf (vs : List Student) (count : Nat) : Result (List Student) Errors :=
  let sortedStudents := sortDesc (fun st => jsNumber st.cgpa) vs
  let topStudents := sortedStudents.take (jsNumber count)
  if topStudents.length = 0 then
    .Err (.UserDoesNotExist ("No top-performing students found"))
  else .Ok topStudents

/-- getTopStudents (source lines 173-197). -/
def getTopStudents (s : Store) (count : Nat) : Result (List Student) Errors :=
  getTopStudentsOf s.values count

/-- Course predicate of the amended course invariant: a stored course is
either valid or the empty string that updateStudent lets through. -/
def courseOK (st : Student) : Prop :=
  st.course = ("") ∨ COURSE_TYPES.contains (toLowerCase st.course) = true

instance (st : Student) : Decidable (courseOK st) := by
  unfold courseOK; infer_instance

instance (s : Store) : Decidable s.WF := by
  unfold Store.WF; infer_instance

/-! Concrete records, payloads and stores used by counterexamples and
witnesses. -/

/-- Record with cgpa 2^53, enumerated first in the C1 counterexample store. -/
def c1A : Student :=
  { id := "a", name := "A", course := "medicine", level := 1, cgpa := 2 ^ 53,
    createdAt := 0, updatedAt := none, lecturerId := "L" }

/-- Record with cgpa 2^53 + 1, enumerated second in the C1 counterexample
store. -/
def c1B : Student :=
  { id := "b", name := "B", course := "medicine", level := 1, cgpa := 2 ^ 53 + 1,
    createdAt := 0, updatedAt := none, lecturerId := "L" }

/-- Record with cgpa 3 for the C1 witness store. -/
def c1w3 : Student :=
  { id := "wa", name := "A", course := "medicine", level := 1, cgpa := 3,
    createdAt := 0, updatedAt := none, lecturerId := "L" }

/-- Record with cgpa 9 for the C1 witness store. -/
def c1w9 : Student :=
  { id := "wb", name := "B", course := "medicine", level := 1, cgpa := 9,
    createdAt := 0, updatedAt := none, lecturerId := "L" }

/-- Record with cgpa 5 for the C1 witness store. -/
def c1w5 : Student :=
  { id := "wc", name := "C", course := "medicine", level := 1, cgpa := 5,
    createdAt := 0, updatedAt := none, lecturerId := "L" }

/-- Store holding one validly created student, start of the C2 counterexample
run. -/
def c2Store : Store :=
  (createStudent ("id-1") 0 ("lect") ("Ann") ("medicine") 100 3 Store.empty).2

/-- Payload whose empty course string skips the updateStudent validation. -/
def c2Payload : StudentPayload :=
  { name := "Ann", course := "", level := 100, cgpa := 3 }

/-- Store seeding the C2 witness. -/
def c2wStudent : Student :=
  { id := "w2", name := "W", course := "Accounting", level := 1, cgpa := 2,
    createdAt := 0, updatedAt := none, lecturerId := "L" }

/-- Previously updated record for the C5 witness. -/
def c5Student : Student :=
  { id := "i5", name := "A", course := "farming", level := 1, cgpa := 2,
    createdAt := 3, updatedAt := some 4, lecturerId := "L" }

/-- Full-replacement payload for the C5 witness. -/
def c5Payload : StudentPayload :=
  { name := "B", course := "engineer", level := 2, cgpa := 5 }

/-- Stored record for the C6 witness. -/
def c6Student : Student :=
  { id := "d1", name := "D", course := "farming", level := 1, cgpa := 2,
    createdAt := 0, updatedAt := none, lecturerId := "L" }

/-- Stored record for the C7 witness. -/
def c7Student : Student :=
  { id := "i7", name := "A", course := "farming", level := 1, cgpa := 2,
    createdAt := 0, updatedAt := none, lecturerId := "L" }

/-- Records for the C8 witness store. -/
def c8A : Student :=
  { id := "p", name := "P", course := "farming", level := 1, cgpa := 6,
    createdAt := 0, updatedAt := none, lecturerId := "L" }

/-- Second record for the C8 witness store. -/
def c8B : Student :=
  { id := "q", name := "Q", course := "medicine", level := 1, cgpa := 8,
    createdAt := 0, updatedAt := none, lecturerId := "L" }

/-- Record with an invalid stored course for the C9 witness, witnessing that
updateGrade does not re-validate the course. -/
def c9Student : Student :=
  { id := "i9", name := "N", course := "astronomy", level := 1, cgpa := 2,
    createdAt := 3, updatedAt := none, lecturerId := "L" }

/-- Payload for the C10 witness. -/
def c10Payload : StudentPayload :=
  { name := "N", course := "farming", level := 1, cgpa := 2 }

/-! Helper lemmas about the store. -/

theorem Store.get_insert_self (s : Store) (k : String) (v : Student) :
    (s.insert k v).get k = some v := by
  induction s with
  | nil => simp [Store.insert, Store.get]
  | cons hd tl ih =>
      obtain ⟨k2, v2⟩ := hd
      by_cases h : k2 = k
      · subst h
        simp [Store.insert, Store.get]
      · simp [Store.insert, Store.get, h, ih]

theorem Store.get_eq_none_of_not_mem (s : Store) (k : String)
    (h : k ∉ s.map Prod.fst) : s.get k = none := by
  induction s with
  | nil => rfl
  | cons hd tl ih =>
      obtain ⟨k2, v2⟩ := hd
      simp only [List.map_cons, List.mem_cons] at h
      push_neg at h
      have h1 : k2 ≠ k := fun hh => h.1 hh.symm
      simp [Store.get, h1, ih h.2]

theorem Store.get_mem_values {s : Store} {k : String} {st : Student}
    (h : s.get k = some st) : st ∈ s.values := by
  induction s with
  | nil => simp [Store.get] at h
  | cons hd tl ih =>
      obtain ⟨k2, v2⟩ := hd
      by_cases h2 : k2 = k
      · subst h2
        simp [Store.get] at h
        subst h
        simp [Store.values]
      · simp only [Store.get, if_neg h2] at h
        simp only [Store.values, List.map_cons, List.mem_cons]
        exact Or.inr (ih h)

theorem Store.mem_values_insert {s : Store} {k : String} {v st : Student}
    (h : st ∈ (s.insert k v).values) : st = v ∨ st ∈ s.values := by
  induction s with
  | nil =>
      simp [Store.insert, Store.values] at h
      simp [h]
  | cons hd tl ih =>
      obtain ⟨k2, v2⟩ := hd
      by_cases h2 : k2 = k
      · subst h2
        simp [Store.insert, Store.values] at h ⊢
        tauto
      · simp only [Store.insert, if_neg h2, Store.values, List.map_cons,
          List.mem_cons] at h
        rcases h with h | h
        · simp [Store.values, h]
        · rcases ih h with h3 | h3
          · exact Or.inl h3
          · simp [Store.values] at h3 ⊢
            tauto

theorem Store.remove_fst (s : Store) (k : String) : (s.remove k).1 = s.get k := by
  induction s with
  | nil => rfl
  | cons hd tl ih =>
      obtain ⟨k2, v2⟩ := hd
      by_cases h : k2 = k <;> simp [Store.remove, Store.get, h, ih]

theorem Store.remove_snd_of_get_none {s : Store} {k : String}
    (h : s.get k = none) : (s.remove k).2 = s := by
  induction s with
  | nil => rfl
  | cons hd tl ih =>
      obtain ⟨k2, v2⟩ := hd
      by_cases h2 : k2 = k
      · subst h2
        simp [Store.get] at h
      · simp only [Store.get, if_neg h2] at h
        simp [Store.remove, h2, ih h]

theorem Store.get_remove_self {s : Store} (k : String) (hwf : s.WF) :
    ((s.remove k).2).get k = none := by
  induction s with
  | nil => rfl
  | cons hd tl ih =>
      obtain ⟨k2, v2⟩ := hd
      have hcons := List.nodup_cons.mp hwf
      by_cases h : k2 = k
      · subst h
        simp only [Store.remove, if_pos rfl]
        exact Store.get_eq_none_of_not_mem tl k2 hcons.1
      · simp only [Store.remove, if_neg h, Store.get, if_neg h]
        exact ih hcons.2

/-! Helper lemmas about the stable descending sort. -/

theorem insertDesc_perm {α : Type} (key : α → Nat) (x : α) (l : List α) :
    (insertDesc key x l).Perm (x :: l) := by
  induction l with
  | nil => exact List.Perm.refl _
  | cons y ys ih =>
      by_cases h : key x < key y
      · simp only [insertDesc, if_pos h]
        exact (ih.cons y).trans (List.Perm.swap x y ys)
      · simp only [insertDesc, if_neg h]
        exact List.Perm.refl _

theorem sortDesc_perm {α : Type} (key : α → Nat) (l : List α) :
    (sortDesc key l).Perm l := by
  induction l with
  | nil => exact List.Perm.refl _
  | cons x xs ih =>
      simp only [sortDesc]
      exact (insertDesc_perm key x (sortDesc key xs)).trans (ih.cons x)

theorem mem_insertDesc {α : Type} {key : α → Nat} {x a : α} {l : List α} :
    a ∈ insertDesc key x l ↔ a = x ∨ a ∈ l := by
  rw [(insertDesc_perm key x l).mem_iff]
  simp

theorem insertDesc_pairwise {α : Type} (key : α → Nat) (x : α) {l : List α}
    (h : l.Pairwise (fun a b => key b ≤ key a)) :
    (insertDesc key x l).Pairwise (fun a b => key b ≤ key a) := by
  induction l with
  | nil => simp [insertDesc]
  | cons y ys ih =>
      rw [List.pairwise_cons] at h
      obtain ⟨hy, hys⟩ := h
      by_cases hxy : key x < key y
      · simp only [insertDesc, if_pos hxy]
        rw [List.pairwise_cons]
        refine ⟨?_, ih hys⟩
        intro b hb
        rcases mem_insertDesc.mp hb with rfl | hb
        · exact Nat.le_of_lt hxy
        · exact hy b hb
      · have hyx : key y ≤ key x := Nat.le_of_not_lt hxy
        simp only [insertDesc, if_neg hxy]
        rw [List.pairwise_cons]
        refine ⟨?_, ?_⟩
        · intro b hb
          rcases List.mem_cons.mp hb with rfl | hb
          · exact hyx
          · exact le_trans (hy b hb) hyx
        · rw [List.pairwise_cons]
          exact ⟨hy, hys⟩

theorem sortDesc_pairwise {α : Type} (key : α → Nat) (l : List α) :
    (sortDesc key l).Pairwise (fun a b => key b ≤ key a) := by
  induction l with
  | nil => simp [sortDesc]
  | cons x xs ih =>
      simp only [sortDesc]
      exact insertDesc_pairwise key x ih

theorem insertDesc_filter {α : Type} (key : α → Nat) (x : α) (l : List α) (c : Nat) :
    (insertDesc key x l).filter (fun a => key a == c) =
      if key x = c then x :: l.filter (fun a => key a == c)
      else l.filter (fun a => key a == c) := by
  induction l with
  | nil => by_cases h : key x = c <;> simp [insertDesc, h]
  | cons y ys ih =>
      by_cases hxy : key x < key y
      · simp only [insertDesc, if_pos hxy, List.filter_cons]
        by_cases hx : key x = c
        · have hy : ¬ (key y = c) := by omega
          rw [ih, if_pos hx]
          simp [beq_iff_eq, hx, hy]
        · rw [ih, if_neg hx]
          by_cases hy : key y = c <;> simp [beq_iff_eq, hy, hx]
      · simp only [insertDesc, if_neg hxy, List.filter_cons]
        by_cases hx : key x = c <;> simp [beq_iff_eq, hx]

theorem sortDesc_filter {α : Type} (key : α → Nat) (l : List α) (c : Nat) :
    (sortDesc key l).filter (fun a => key a == c) = l.filter (fun a => key a == c) := by
  induction l with
  | nil => rfl
  | cons x xs ih =>
      simp only [sortDesc]
      rw [insertDesc_filter, List.filter_cons]
      by_cases hx : key x = c <;> simp [beq_iff_eq, hx, ih]

/-! Helper lemmas about jsNumber. -/

theorem jsNumber_of_lt {n : Nat} (h : n < 2 ^ 53) : jsNumber n = n := by
  unfold jsNumber
  rw [if_pos h]

theorem jsExp_bounds (n : Nat) : 1 ≤ jsExp n ∧ jsExp n ≤ 11 := by
  unfold jsExp
  repeat' split
  all_goals omega

theorem jsNumber_ge {n : Nat} (h : 2 ^ 53 ≤ n) : 2 ^ 53 - 2 ^ 11 ≤ jsNumber n := by
  have hb := jsExp_bounds n
  have hpos : 0 < 2 ^ jsExp n := Nat.pow_pos (by norm_num)
  have hmod : n % 2 ^ jsExp n < 2 ^ jsExp n := Nat.mod_lt _ hpos
  have hdm : n / 2 ^ jsExp n * 2 ^ jsExp n + n % 2 ^ jsExp n = n := Nat.div_add_mod' n _
  have hpow : 2 ^ jsExp n ≤ 2 ^ 11 := Nat.pow_le_pow_right (by norm_num) hb.2
  unfold jsNumber
  rw [if_neg (by omega)]
  split
  · have hmul : (n / 2 ^ jsExp n + 1) * 2 ^ jsExp n
        = n / 2 ^ jsExp n * 2 ^ jsExp n + 2 ^ jsExp n := by ring
    omega
  · omega

theorem jsNumber_eq_zero_iff (n : Nat) : jsNumber n = 0 ↔ n = 0 := by
  constructor
  · intro h
    by_cases h53 : n < 2 ^ 53
    · rwa [jsNumber_of_lt h53] at h
    · have := jsNumber_ge (Nat.le_of_not_lt h53)
      omega
  · rintro rfl
    rfl

theorem le_jsNumber_of_le {len n : Nat} (hlen : len < 2 ^ 32) (h : len ≤ n) :
    len ≤ jsNumber n := by
  by_cases h53 : n < 2 ^ 53
  · rwa [jsNumber_of_lt h53]
  · have := jsNumber_ge (Nat.le_of_not_lt h53)
    omega

theorem Store.mem_values_remove {s : Store} {k : String} {st : Student}
    (h : st ∈ ((s.remove k).2).values) : st ∈ s.values := by
  induction s with
  | nil => simp [Store.remove, Store.values] at h
  | cons hd tl ih =>
      obtain ⟨k2, v2⟩ := hd
      by_cases h2 : k2 = k
      · subst h2
        simp only [Store.remove, if_pos rfl] at h
        simp only [Store.values, List.map_cons, List.mem_cons]
        exact Or.inr h
      · simp only [Store.remove, if_neg h2, Store.values, List.map_cons,
          List.mem_cons] at h
        rcases h with h | h
        · simp [Store.values, h]
        · simp only [Store.values, List.map_cons, List.mem_cons]
          exact Or.inr (ih h)

theorem Bool.ne_false_of_eq_true {b : Bool} (h : b = true) : ¬(b = false) := by
  rw [h]
  simp

theorem updateStudent_eq (now : Nat) (i : String) (p : StudentPayload)
    (s : Store) (st : Student) (hg : s.get i = some st) :
    updateStudent now i p s =
      if p.course ≠ ("") ∧ COURSE_TYPES.contains (toLowerCase p.course) = false then
        (.Err (.CourseDoesNotExist (courseErrMsg p.course)), s)
      else
        (.Ok { st with
               name := p.name
               course := p.course
               level := p.level
               cgpa := p.cgpa
               updatedAt := some now },
         s.insert st.id
           { st with
             name := p.name
             course := p.course
             level := p.level
             cgpa := p.cgpa
             updatedAt := some now }) := by
  unfold updateStudent
  rw [hg]

theorem updateGrade_eq (now : Nat) (i : String) (q : CgpaPayload)
    (s : Store) (st : Student) (hg : s.get i = some st) :
    updateGrade now i q s =
      (.Ok { st with cgpa := q.cgpa, updatedAt := some now },
       s.insert st.id { st with cgpa := q.cgpa, updatedAt := some now }) := by
  unfold updateGrade
  rw [hg]

/-! Claim theorems. -/

/-- C3: for every name, level and cgpa and every course string whose lowercase
form is in the fixed course set, createStudent succeeds; the returned record
keeps the course exactly as given, copies name, level and cgpa from the
inputs, stamps createdAt with the injected current time, leaves updatedAt
absent, records the invoking caller as lecturerId, and the record is inserted
into the store under the returned id. -/
theorem C3_createStudent_valid (gid : String) (now : Nat) (caller : String)
    (name course : String) (level cgpa : Nat) (s : Store)
    (h : COURSE_TYPES.contains (toLowerCase course) = true) :
    ∃ u : Student,
      createStudent gid now caller name course level cgpa s =
        (.Ok u, s.insert gid u) ∧
      u.id = gid ∧ u.name = name ∧ u.course = course ∧ u.level = level ∧
      u.cgpa = cgpa ∧ u.createdAt = now ∧ u.updatedAt = none ∧
      u.lecturerId = caller ∧ (s.insert gid u).get gid = some u := by
  refine ⟨{ id := gid
            name := name
            course := course
            level := level
            cgpa := cgpa
            createdAt := now
            updatedAt := none
            lecturerId := caller },
    ?_, rfl, rfl, rfl, rfl, rfl, rfl, rfl, rfl, Store.get_insert_self s gid _⟩
  unfold createStudent
  rw [if_neg (Bool.ne_false_of_eq_true h)]

/-- Witness for C3 at concrete inputs. -/
theorem C3_witness :
    COURSE_TYPES.contains (toLowerCase ("Medicine")) = true ∧
    ∃ u : Student,
      createStudent ("g1") 5 ("L1") ("Bob") ("Medicine") 200 4 Store.empty =
        (.Ok u, Store.empty.insert ("g1") u) ∧
      u.id = ("g1") ∧ u.name = ("Bob") ∧ u.course = ("Medicine") ∧ u.level = 200 ∧
      u.cgpa = 4 ∧ u.createdAt = 5 ∧ u.updatedAt = none ∧
      u.lecturerId = ("L1") ∧ (Store.empty.insert ("g1") u).get ("g1") = some u :=
  ⟨by decide,
   C3_createStudent_valid ("g1") 5 ("L1") ("Bob") ("Medicine") 200 4 Store.empty
     (by decide)⟩

/-- C4: for every course string whose lowercase form is not in the fixed set,
createStudent fails with CourseDoesNotExist, the message names the rejected
value and the comma-joined allowed set, and the store is unchanged. -/
theorem C4_createStudent_invalid (gid : String) (now : Nat) (caller : String)
    (name course : String) (level cgpa : Nat) (s : Store)
    (h : COURSE_TYPES.contains (toLowerCase course) = false) :
    createStudent gid now caller name course level cgpa s =
      (.Err (.CourseDoesNotExist
        ("\x27" ++ course ++ ("\x27 is not a viable course, please select one of: ") ++
          ("accounting,information tech,medicine,engineer,farming"))), s) := by
  unfold createStudent
  rw [if_pos h]
  rfl

/-- Witness for C4 at the course astronomy from the spec example. -/
theorem C4_witness :
    COURSE_TYPES.contains (toLowerCase ("astronomy")) = false ∧
    createStudent ("g2") 0 ("L2") ("Jo") ("astronomy") 1 4 Store.empty =
      (.Err (.CourseDoesNotExist
        ("\x27astronomy\x27 is not a viable course, please select one of: accounting,information tech,medicine,engineer,farming")),
       Store.empty) :=
  ⟨by decide,
   C4_createStudent_invalid ("g2") 0 ("L2") ("Jo") ("astronomy") 1 4 Store.empty
     (by decide)⟩

/-- C9: updateGrade on a stored record overwrites only cgpa and stamps
updatedAt with the current time; name, course, level, id, createdAt and
lecturerId are unchanged, no course re-validation occurs (no hypothesis on
the stored course is needed), and the updated record is persisted under its
id and returned. -/
theorem C9_updateGrade_frame (now : Nat) (i : String) (p : CgpaPayload)
    (s : Store) (st : Student) (hget : s.get i = some st) :
    ∃ st2 : Student,
      updateGrade now i p s = (.Ok st2, s.insert st.id st2) ∧
      st2.cgpa = p.cgpa ∧ st2.updatedAt = some now ∧
      st2.name = st.name ∧ st2.course = st.course ∧ st2.level = st.level ∧
      st2.id = st.id ∧ st2.createdAt = st.createdAt ∧
      st2.lecturerId = st.lecturerId ∧
      (s.insert st.id st2).get st.id = some st2 := by
  refine ⟨{ st with cgpa := p.cgpa, updatedAt := some now }, ?_, rfl, rfl, rfl,
    rfl, rfl, rfl, rfl, rfl, Store.get_insert_self s st.id _⟩
  unfold updateGrade
  rw [hget]

/-- Witness for C9 on a record whose stored course is not in the set. -/
theorem C9_witness :
    Store.get [(("i9"), c9Student)] ("i9") = some c9Student ∧
    ∃ st2 : Student,
      updateGrade 9 ("i9") ⟨7⟩ [(("i9"), c9Student)] =
        (.Ok st2, Store.insert [(("i9"), c9Student)] c9Student.id st2) ∧
      st2.cgpa = 7 ∧ st2.updatedAt = some 9 ∧
      st2.name = c9Student.name ∧ st2.course = c9Student.course ∧
      st2.level = c9Student.level ∧ st2.id = c9Student.id ∧
      st2.createdAt = c9Student.createdAt ∧
      st2.lecturerId = c9Student.lecturerId ∧
      (Store.insert [(("i9"), c9Student)] c9Student.id st2).get c9Student.id =
        some st2 :=
  ⟨by decide,
   C9_updateGrade_frame 9 ("i9") ⟨7⟩ [(("i9"), c9Student)] c9Student (by decide)⟩

/-- C10: whenever updateStudent, updateGrade or deleteStudentRecord returns an
error, the resulting store is exactly the store before the call. -/
theorem C10_error_atomicity (now : Nat) (i : String) (p : StudentPayload)
    (q : CgpaPayload) (s : Store) :
    ((∃ e, (updateStudent now i p s).1 = .Err e) → (updateStudent now i p s).2 = s) ∧
    ((∃ e, (updateGrade now i q s).1 = .Err e) → (updateGrade now i q s).2 = s) ∧
    ((∃ e, (deleteStudentRecord i s).1 = .Err e) → (deleteStudentRecord i s).2 = s) := by
  refine ⟨?_, ?_, ?_⟩
  · rintro ⟨e, he⟩
    cases hg : s.get i with
    | none =>
        unfold updateStudent
        rw [hg]
    | some st =>
        rw [updateStudent_eq now i p s st hg] at he ⊢
        by_cases hc : p.course ≠ ("") ∧
            COURSE_TYPES.contains (toLowerCase p.course) = false
        · rw [if_pos hc]
        · rw [if_neg hc] at he
          simp at he
  · rintro ⟨e, he⟩
    cases hg : s.get i with
    | none =>
        unfold updateGrade
        rw [hg]
    | some st =>
        rw [updateGrade_eq now i q s st hg] at he
        simp at he
  · rintro ⟨e, he⟩
    cases hg : s.get i with
    | none =>
        unfold deleteStudentRecord
        rw [Store.remove_fst, hg]
        exact Store.remove_snd_of_get_none hg
    | some st =>
        unfold deleteStudentRecord at he
        rw [Store.remove_fst, hg] at he
        simp at he

/-- Witness for C10: a failing updateStudent on the empty store leaves it
empty. -/
theorem C10_witness :
    (updateStudent 0 ("x") c10Payload Store.empty).2 = Store.empty :=
  (C10_error_atomicity 0 ("x") c10Payload ⟨1⟩ Store.empty).1
    ⟨.UserDoesNotExist ("couldn\x27t update a student with id=x. Student not found"),
     by decide⟩

/-- C7: getStudentById fails with UserDoesNotExist carrying the id itself
exactly when the id is absent, and otherwise returns the stored record
unchanged; createStudent followed by getStudentById on the returned id yields
the created record, and a repeated read without intervening mutation is
identical (queries do not change the store in this pure embedding). -/
theorem C7_getStudentById_spec (s : Store) (i : String) :
    (s.get i = none → getStudentById s i = .Err (.UserDoesNotExist i)) ∧
    (∀ st : Student, s.get i = some st → getStudentById s i = .Ok st) ∧
    (∀ (gid : String) (now : Nat) (caller name course : String)
        (level cgpa : Nat) (u : Student) (s2 : Store),
      createStudent gid now caller name course level cgpa s = (.Ok u, s2) →
      getStudentById s2 u.id = .Ok u) ∧
    getStudentById s i = getStudentById s i := by
  refine ⟨?_, ?_, ?_, rfl⟩
  · intro hg
    unfold getStudentById Store.containsKey
    rw [hg]
    rfl
  · intro st hg
    unfold getStudentById Store.containsKey
    rw [hg]
    rfl
  · intro gid now caller name course level cgpa u s2 hcr
    unfold createStudent at hcr
    by_cases hc : COURSE_TYPES.contains (toLowerCase course) = false
    · rw [if_pos hc] at hcr
      simp at hcr
    · rw [if_neg hc] at hcr
      simp only [Prod.mk.injEq, Result.Ok.injEq] at hcr
      obtain ⟨rfl, rfl⟩ := hcr
      unfold getStudentById Store.containsKey
      rw [Store.get_insert_self]
      rfl

/-- Witness for C7: a present id and an absent id at concrete stores. -/
theorem C7_witness :
    getStudentById [(("i7"), c7Student)] ("i7") = .Ok c7Student ∧
    getStudentById Store.empty ("zz") = .Err (.UserDoesNotExist ("zz")) :=
  ⟨(C7_getStudentById_spec [(("i7"), c7Student)] ("i7")).2.1 c7Student (by decide),
   (C7_getStudentById_spec Store.empty ("zz")).1 rfl⟩

/-- C5: updateStudent on a stored record with a valid (or empty) payload
course overwrites exactly name, course, level and cgpa with the payload
values, stamps updatedAt with the current time, keeps id, createdAt and
lecturerId unchanged, persists the record under its unchanged id, and under a
monotonic time source the new updatedAt is at least the prior createdAt and
the prior updatedAt. -/
theorem C5_updateStudent_frame (now : Nat) (i : String) (p : StudentPayload)
    (s : Store) (st : Student) (hget : s.get i = some st)
    (hc : p.course = ("") ∨ COURSE_TYPES.contains (toLowerCase p.course) = true)
    (h1 : st.createdAt ≤ now) (h2 : ∀ u, st.updatedAt = some u → u ≤ now) :
    ∃ st2 : Student,
      updateStudent now i p s = (.Ok st2, s.insert st.id st2) ∧
      st2.name = p.name ∧ st2.course = p.course ∧ st2.level = p.level ∧
      st2.cgpa = p.cgpa ∧ st2.id = st.id ∧ st2.createdAt = st.createdAt ∧
      st2.lecturerId = st.lecturerId ∧ st2.updatedAt = some now ∧
      st.createdAt ≤ now ∧ (∀ u, st.updatedAt = some u → u ≤ now) := by
  have hcond : ¬(p.course ≠ ("") ∧
      COURSE_TYPES.contains (toLowerCase p.course) = false) := by
    rcases hc with hc | hc
    · exact fun hx => hx.1 hc
    · exact fun hx => absurd hx.2 (Bool.ne_false_of_eq_true hc)
  refine ⟨{ st with
            name := p.name
            course := p.course
            level := p.level
            cgpa := p.cgpa
            updatedAt := some now },
    ?_, rfl, rfl, rfl, rfl, rfl, rfl, rfl, rfl, h1, h2⟩
  rw [updateStudent_eq now i p s st hget, if_neg hcond]

/-- Witness for C5 on a previously updated record. -/
theorem C5_witness :
    ∃ st2 : Student,
      updateStudent 9 ("i5") c5Payload [(("i5"), c5Student)] =
        (.Ok st2, Store.insert [(("i5"), c5Student)] c5Student.id st2) ∧
      st2.name = c5Payload.name ∧ st2.course = c5Payload.course ∧
      st2.level = c5Payload.level ∧ st2.cgpa = c5Payload.cgpa ∧
      st2.id = c5Student.id ∧ st2.createdAt = c5Student.createdAt ∧
      st2.lecturerId = c5Student.lecturerId ∧ st2.updatedAt = some 9 ∧
      c5Student.createdAt ≤ 9 ∧ (∀ u, c5Student.updatedAt = some u → u ≤ 9) :=
  C5_updateStudent_frame 9 ("i5") c5Payload [(("i5"), c5Student)] c5Student
    (by decide) (by decide) (by decide)
    (fun u hu => by
      have h4 : (4 : Nat) = u := Option.some.inj hu
      omega)

/-- C6: deleteStudentRecord fails with UserDoesNotExist when no record exists
for the id (and then leaves the store as produced by the no-op removal); on
success it returns exactly the record stored immediately before the deletion,
and afterwards getStudentById on the same id fails with UserDoesNotExist. -/
theorem C6_deleteStudentRecord_spec (s : Store) (i : String) (hwf : s.WF) :
    (s.get i = none →
      deleteStudentRecord i s =
        (.Err (.UserDoesNotExist
          ("couldn\x27t delete a student with id=" ++ i ++ (". Student not found"))),
         s)) ∧
    (∀ st : Student, s.get i = some st →
      (deleteStudentRecord i s).1 = .Ok st ∧
      getStudentById (deleteStudentRecord i s).2 i = .Err (.UserDoesNotExist i)) := by
  constructor
  · intro hg
    unfold deleteStudentRecord
    rw [Store.remove_fst, hg, Store.remove_snd_of_get_none hg]
  · intro st hg
    have h1 : (deleteStudentRecord i s).1 = .Ok st := by
      unfold deleteStudentRecord
      rw [Store.remove_fst, hg]
    have h2 : (deleteStudentRecord i s).2 = (s.remove i).2 := by
      unfold deleteStudentRecord
      rw [Store.remove_fst, hg]
    refine ⟨h1, ?_⟩
    rw [h2]
    have hnone : ((s.remove i).2).get i = none := Store.get_remove_self i hwf
    unfold getStudentById Store.containsKey
    rw [hnone]
    rfl

/-- Witness for C6 at a singleton store. -/
theorem C6_witness :
    (deleteStudentRecord ("d1") [(("d1"), c6Student)]).1 = .Ok c6Student ∧
    getStudentById (deleteStudentRecord ("d1") [(("d1"), c6Student)]).2 ("d1") =
      .Err (.UserDoesNotExist ("d1")) :=
  (C6_deleteStudentRecord_spec [(("d1"), c6Student)] ("d1") (by decide)).2
    c6Student (by decide)

/-- C2 counterexample: after createStudent with course medicine followed by
updateStudent with the empty course string (which skips the validation but is
still written by the spread), the store holds a record whose course is not in
the fixed set under lowercasing, refuting the claimed invariant. -/
theorem C2_counterexample :
    (updateStudent 7 ("id-1") c2Payload c2Store).1 =
      .Ok { id := "id-1"
            name := "Ann"
            course := ""
            level := 100
            cgpa := 3
            createdAt := 0
            updatedAt := some 7
            lecturerId := "lect" } ∧
    ∃ st ∈ ((updateStudent 7 ("id-1") c2Payload c2Store).2).values,
      COURSE_TYPES.contains (toLowerCase st.course) = false := by
  decide

/-- C2 amended: every operation preserves the invariant that each stored
record's course is in the fixed set under lowercasing or is the empty string
that the updateStudent validation admits. -/
theorem C2_course_invariant (s : Store) (hs : ∀ st ∈ s.values, courseOK st) :
    (∀ (gid : String) (now : Nat) (caller name course : String) (level cgpa : Nat),
      ∀ st ∈ ((createStudent gid now caller name course level cgpa s).2).values,
        courseOK st) ∧
    (∀ (now : Nat) (i : String) (p : StudentPayload),
      ∀ st ∈ ((updateStudent now i p s).2).values, courseOK st) ∧
    (∀ (now : Nat) (i : String) (q : CgpaPayload),
      ∀ st ∈ ((updateGrade now i q s).2).values, courseOK st) ∧
    (∀ i : String, ∀ st ∈ ((deleteStudentRecord i s).2).values, courseOK st) := by
  refine ⟨?_, ?_, ?_, ?_⟩
  · intro gid now caller name course level cgpa st hst
    by_cases hcb : COURSE_TYPES.contains (toLowerCase course) = false
    · unfold createStudent at hst
      rw [if_pos hcb] at hst
      exact hs st hst
    · have hct : COURSE_TYPES.contains (toLowerCase course) = true := by
        cases hb : COURSE_TYPES.contains (toLowerCase course)
        · exact absurd hb hcb
        · rfl
      unfold createStudent at hst
      rw [if_neg hcb] at hst
      rcases Store.mem_values_insert hst with rfl | hmem
      · exact Or.inr hct
      · exact hs st hmem
  · intro now i p st hst
    cases hg : s.get i with
    | none =>
        unfold updateStudent at hst
        rw [hg] at hst
        exact hs st hst
    | some stud =>
        rw [updateStudent_eq now i p s stud hg] at hst
        by_cases hc : p.course ≠ ("") ∧
            COURSE_TYPES.contains (toLowerCase p.course) = false
        · rw [if_pos hc] at hst
          exact hs st hst
        · rw [if_neg hc] at hst
          rcases Store.mem_values_insert hst with rfl | hmem
          · by_cases hpc : p.course = ("")
            · exact Or.inl hpc
            · right
              cases hb : COURSE_TYPES.contains (toLowerCase p.course)
              · exact absurd ⟨hpc, hb⟩ hc
              · rfl
          · exact hs st hmem
  · intro now i q st hst
    cases hg : s.get i with
    | none =>
        unfold updateGrade at hst
        rw [hg] at hst
        exact hs st hst
    | some stud =>
        rw [updateGrade_eq now i q s stud hg] at hst
        rcases Store.mem_values_insert hst with rfl | hmem
        · exact hs stud (Store.get_mem_values hg)
        · exact hs st hmem
  · intro i st hst
    cases hg : s.get i with
    | none =>
        unfold deleteStudentRecord at hst
        rw [Store.remove_fst, hg] at hst
        exact hs st (Store.mem_values_remove hst)
    | some stud =>
        unfold deleteStudentRecord at hst
        rw [Store.remove_fst, hg] at hst
        exact hs st (Store.mem_values_remove hst)

/-- Witness for C2 on the record created with course farming. -/
theorem C2_witness :
    courseOK { id := "g"
               name := "N"
               course := "farming"
               level := 1
               cgpa := 2
               createdAt := 1
               updatedAt := none
               lecturerId := "L" } :=
  (C2_course_invariant [(("w2"), c2wStudent)] (by decide)).1 ("g") 1 ("L") ("N")
    ("farming") 1 2 _ (by decide)

/-- C8: getAllStudents fails with UserDoesNotExist "No students found" exactly
when the store is empty and otherwise returns every record; getTopStudents
fails with UserDoesNotExist "No top-performing students found" exactly when
the store is empty or the count is zero, and a count at least the population
returns all records. The population bound is the length limit of a JS array
and the count ranges over nat64. -/
theorem C8_list_queries (s : Store) (count : Nat)
    (hlen : s.values.length < 2 ^ 32) (_hcnt : count < 2 ^ 64) :
    (getAllStudents s =
      if s.values.length = 0 then .Err (.UserDoesNotExist ("No students found"))
      else .Ok s.values) ∧
    (getTopStudents s count =
        .Err (.UserDoesNotExist ("No top-performing students found")) ↔
      (s.values = [] ∨ count = 0)) ∧
    (s.values ≠ [] → s.values.length ≤ count →
      ∃ res : List Student, getTopStudents s count = .Ok res ∧
        res.Perm s.values ∧ res.length = s.values.length) := by
  have hperm := sortDesc_perm (fun st => jsNumber st.cgpa) s.values
  have hslen : (sortDesc (fun st => jsNumber st.cgpa) s.values).length
      = s.values.length := hperm.length_eq
  have htop : ((sortDesc (fun st => jsNumber st.cgpa) s.values).take
        (jsNumber count)).length = min (jsNumber count) s.values.length := by
    rw [List.length_take, hslen]
  refine ⟨rfl, ?_, ?_⟩
  · simp only [getTopStudents, getTopStudentsOf]
    by_cases h0 : ((sortDesc (fun st => jsNumber st.cgpa) s.values).take
        (jsNumber count)).length = 0
    · rw [if_pos h0]
      constructor
      · intro _
        rw [htop] at h0
        rcases Nat.min_eq_zero_iff.mp h0 with h | h
        · exact Or.inr ((jsNumber_eq_zero_iff count).mp h)
        · exact Or.inl (List.length_eq_zero.mp h)
      · intro _
        rfl
    · rw [if_neg h0]
      constructor
      · intro hcontra
        exact absurd hcontra (by simp)
      · intro hor
        exfalso
        rw [htop] at h0
        rcases hor with h | h
        · rw [h] at h0
          simp at h0
        · rw [h] at h0
          have hz : jsNumber 0 = 0 := rfl
          omega
  · intro hne hc2
    have hge : s.values.length ≤ jsNumber count := le_jsNumber_of_le hlen hc2
    have hall : (sortDesc (fun st => jsNumber st.cgpa) s.values).take (jsNumber count)
        = sortDesc (fun st => jsNumber st.cgpa) s.values := by
      apply List.take_of_length_le
      rw [hslen]
      exact hge
    have h0 : ((sortDesc (fun st => jsNumber st.cgpa) s.values).take
        (jsNumber count)).length ≠ 0 := by
      rw [htop]
      have hpos : 0 < s.values.length := List.length_pos.mpr hne
      omega
    refine ⟨(sortDesc (fun st => jsNumber st.cgpa) s.values).take (jsNumber count),
      ?_, ?_, ?_⟩
    · simp only [getTopStudents, getTopStudentsOf]
      rw [if_neg h0]
    · rw [hall]
      exact hperm
    · rw [htop]
      omega

/-- Witness for C8 at a two-record store and the count 5. -/
theorem C8_witness :
    (Store.values [(("p"), c8A), (("q"), c8B)]).length < 2 ^ 32 ∧
    (5 : Nat) < 2 ^ 64 ∧
    ((getAllStudents [(("p"), c8A), (("q"), c8B)] =
      if (Store.values [(("p"), c8A), (("q"), c8B)]).length = 0 then
        .Err (.UserDoesNotExist ("No students found"))
      else .Ok (Store.values [(("p"), c8A), (("q"), c8B)])) ∧
    (getTopStudents [(("p"), c8A), (("q"), c8B)] 5 =
        .Err (.UserDoesNotExist ("No top-performing students found")) ↔
      (Store.values [(("p"), c8A), (("q"), c8B)] = [] ∨ (5 : Nat) = 0)) ∧
    (Store.values [(("p"), c8A), (("q"), c8B)] ≠ [] →
      (Store.values [(("p"), c8A), (("q"), c8B)]).length ≤ 5 →
      ∃ res : List Student,
        getTopStudents [(("p"), c8A), (("q"), c8B)] 5 = .Ok res ∧
        res.Perm (Store.values [(("p"), c8A), (("q"), c8B)]) ∧
        res.length = (Store.values [(("p"), c8A), (("q"), c8B)]).length)) :=
  ⟨by decide, by decide,
   C8_list_queries [(("p"), c8A), (("q"), c8B)] 5 (by decide) (by decide)⟩

/-- C1 counterexample: Number() rounds both 2^53 and 2^53 + 1 to the same
double, so the comparator ties and the stable sort keeps enumeration order:
the top-1 query returns the record with the strictly smaller exact cgpa while
the record with the larger cgpa is not returned, and the top-2 result is not
descending in the exact nat64 values. -/
theorem C1_counterexample :
    c1A.cgpa < c1B.cgpa ∧
    getTopStudentsOf [c1A, c1B] 1 = .Ok [c1A] ∧
    getTopStudentsOf [c1A, c1B] 2 = .Ok [c1A, c1B] := by
  decide

/-- C1 amended: on a nonempty store whose cgpa values are all below 2^53
(exactly representable as doubles) and for a positive count below 2^53,
getTopStudentsOf returns the stable descending slice: its length is
min(count, population), it is sorted by cgpa descending, every returned
record's cgpa is at least every non-returned record's cgpa, and records with
equal cgpa appear in enumeration order (each equal-cgpa class of the result
is a prefix of the class in the store enumeration). For cgpa values at 2^53
or above the sort compares the rounded doubles instead, see
C1_counterexample. -/
theorem C1_getTopStudents_amended (vs : List Student) (k : Nat)
    (hne : vs ≠ []) (hk : 0 < k) (hk53 : k < 2 ^ 53)
    (hcg : ∀ st ∈ vs, st.cgpa < 2 ^ 53) :
    getTopStudentsOf vs k =
      .Ok ((sortDesc (fun st => jsNumber st.cgpa) vs).take k) ∧
    ((sortDesc (fun st => jsNumber st.cgpa) vs).take k).length = min k vs.length ∧
    vs.Perm ((sortDesc (fun st => jsNumber st.cgpa) vs).take k ++
             (sortDesc (fun st => jsNumber st.cgpa) vs).drop k) ∧
    ((sortDesc (fun st => jsNumber st.cgpa) vs).take k).Pairwise
      (fun a b => b.cgpa ≤ a.cgpa) ∧
    (∀ a ∈ (sortDesc (fun st => jsNumber st.cgpa) vs).take k,
      ∀ b ∈ (sortDesc (fun st => jsNumber st.cgpa) vs).drop k, b.cgpa ≤ a.cgpa) ∧
    (∀ c : Nat, ∃ m : Nat,
      ((sortDesc (fun st => jsNumber st.cgpa) vs).take k).filter
          (fun a => a.cgpa == c) =
        (vs.filter (fun a => a.cgpa == c)).take m) := by
  have hjk : jsNumber k = k := jsNumber_of_lt hk53
  have hperm := sortDesc_perm (fun st => jsNumber st.cgpa) vs
  have hslen : (sortDesc (fun st => jsNumber st.cgpa) vs).length = vs.length :=
    hperm.length_eq
  have hpw2 : (sortDesc (fun st => jsNumber st.cgpa) vs).Pairwise
      (fun a b => b.cgpa ≤ a.cgpa) := by
    refine (sortDesc_pairwise (fun st => jsNumber st.cgpa) vs).imp_of_mem ?_
    intro a b ha hb hab
    have hab2 : jsNumber b.cgpa ≤ jsNumber a.cgpa := hab
    rw [jsNumber_of_lt (hcg a (hperm.subset ha)),
      jsNumber_of_lt (hcg b (hperm.subset hb))] at hab2
    exact hab2
  have h0 : ((sortDesc (fun st => jsNumber st.cgpa) vs).take k).length ≠ 0 := by
    rw [List.length_take, hslen]
    have := List.length_pos.mpr hne
    omega
  refine ⟨?_, ?_, ?_, ?_, ?_, ?_⟩
  · simp only [getTopStudentsOf]
    rw [hjk, if_neg h0]
  · rw [List.length_take, hslen]
  · rw [List.take_append_drop]
    exact hperm.symm
  · exact hpw2.sublist (List.take_sublist k _)
  · have hsplit : ((sortDesc (fun st => jsNumber st.cgpa) vs).take k ++
        (sortDesc (fun st => jsNumber st.cgpa) vs).drop k).Pairwise
        (fun a b => b.cgpa ≤ a.cgpa) := by
      rw [List.take_append_drop]
      exact hpw2
    exact (List.pairwise_append.mp hsplit).2.2
  · intro c
    have hkeyfil : ∀ l2 : List Student, (∀ a ∈ l2, a.cgpa < 2 ^ 53) →
        l2.filter (fun a => (jsNumber a.cgpa) == c) =
          l2.filter (fun a => a.cgpa == c) := by
      intro l2 hl2
      refine List.filter_congr ?_
      intro a ha
      rw [jsNumber_of_lt (hl2 a ha)]
    have hSmem : ∀ a ∈ sortDesc (fun st => jsNumber st.cgpa) vs, a.cgpa < 2 ^ 53 :=
      fun a ha => hcg a (hperm.subset ha)
    have hf : (sortDesc (fun st => jsNumber st.cgpa) vs).filter (fun a => a.cgpa == c)
        = vs.filter (fun a => a.cgpa == c) := by
      rw [← hkeyfil _ hSmem, ← hkeyfil vs hcg]
      exact sortDesc_filter (fun st => jsNumber st.cgpa) vs c
    refine ⟨(((sortDesc (fun st => jsNumber st.cgpa) vs).take k).filter
        (fun a => a.cgpa == c)).length, ?_⟩
    have happ : ((sortDesc (fun st => jsNumber st.cgpa) vs).take k).filter
          (fun a => a.cgpa == c) ++
        ((sortDesc (fun st => jsNumber st.cgpa) vs).drop k).filter
          (fun a => a.cgpa == c) =
        vs.filter (fun a => a.cgpa == c) := by
      rw [← List.filter_append, List.take_append_drop]
      exact hf
    rw [← happ, List.take_left]

/-- Witness for C1 at the spec example store with cgpas 3, 9, 5 and count 2. -/
theorem C1_witness :
    getTopStudentsOf [c1w3, c1w9, c1w5] 2 =
      .Ok ((sortDesc (fun st => jsNumber st.cgpa) [c1w3, c1w9, c1w5]).take 2) ∧
    ((sortDesc (fun st => jsNumber st.cgpa) [c1w3, c1w9, c1w5]).take 2).length =
      min 2 ([c1w3, c1w9, c1w5] : List Student).length :=
  ⟨(C1_getTopStudents_amended [c1w3, c1w9, c1w5] 2 (by decide) (by decide)
      (by decide) (by decide)).1,
   (C1_getTopStudents_amended [c1w3, c1w9, c1w5] 2 (by decide) (by decide)
      (by decide) (by decide)).2.1⟩
